import Mathlib

/-!
# Herd-game server: shallow embedding and verification

A shallow embedding of `src/server.js` (the socket/HTTP handlers of the
"Herd Mentality" party-game server) together with proofs about the claims
of the specification.

Modelling conventions:
* Postgres tables become Lean lists of rows, in insertion order.
* `LOWER(x)` in SQL and `.toUpperCase()` in JS become the charwise
  `lowerStr` / `upperStr` below.
* `ORDER BY name ASC` becomes `List.insertionSort` by the name field.
* `Math.floor(Math.random() * n)` is modelled by an oracle argument
  `k : Nat`, indexing as `k % n`.
* Socket.IO emissions are collected in an explicit `List Emit`; each
  handler maps a server state to `(newState, emissions)`.
* Places where the JS would throw (e.g. `rows[0]` on an empty result set,
  or an INSERT violating a foreign key of the schema) abort the handler
  after the writes already issued; observably this is "no further
  emission", which is how they are modelled.
* Two foreign keys matter: `players.room_code REFERENCES rooms(code)` and
  `answers.question_id REFERENCES questions(id)`.  `ON CONFLICT DO
  NOTHING` only suppresses unique-index conflicts (a skipped row is never
  checked against foreign keys); an FK violation throws.
-/

namespace Herd

/-- A row of the `questions` table (`id SERIAL`, `prompt`, `sort_number`). -/
structure Question where
  id : Nat
  prompt : String
  sortNumber : Option Nat
deriving DecidableEq, Repr

/-- A row of the `rooms` table (`code` unique, `status`, `current_round`
defaulting to 0, `active_question_id` nullable). -/
structure Room where
  code : String
  status : String
  currentRound : Nat
  activeQuestionId : Option Nat
deriving DecidableEq, Repr

/-- A row of the `players` table; unique index on `(LOWER(name), room_code)`. -/
structure Player where
  name : String
  roomCode : String
  submitted : Bool
deriving DecidableEq, Repr

/-- A row of the `answers` table.  NOTE: the schema declares only the
`SERIAL` primary key; there is **no** unique constraint on
`(room_code, player_name, question_id, round_number)`. -/
structure AnswerRow where
  roomCode : String
  playerName : String
  questionId : Nat
  roundNumber : Nat
  answer : String
deriving DecidableEq, Repr

/-- A live Socket.IO connection: its id, the `name` field of its handshake
query (used by `emitPlayerList`), and the rooms it has `socket.join`ed. -/
structure Conn where
  cid : Nat
  handshakeName : Option String
  joinedRooms : List String
deriving DecidableEq, Repr

/-- The whole server-visible state: the four tables plus live connections. -/
structure ServerState where
  rooms : List Room
  players : List Player
  questions : List Question
  answers : List AnswerRow
  conns : List Conn
deriving DecidableEq, Repr

/-- An entry of the merged player list broadcast by `emitPlayerList`. -/
structure PlayerEntry where
  name : String
  submitted : Bool
  active : Bool
deriving DecidableEq, Repr

/-- The payload of a `roundStarted` event. -/
structure RoundPayload where
  questionId : Nat
  prompt : String
  playerCount : Nat
  roundNumber : Nat
  myAnswer : Option String
deriving DecidableEq, Repr

/-- Socket.IO emissions produced by the handlers. -/
inductive Emit where
  | playerList (room : String) (entries : List PlayerEntry)
  | roundStartedRoom (room : String) (p : RoundPayload)
  | roundStartedPrivate (cid : Nat) (p : RoundPayload)
  | submissionProgress (room : String) (submitted total : Nat)
  | allSubmitted (room : String)
  | answersRevealed (room : String) (rows : List (String × String))
deriving DecidableEq, Repr

/-- Result of the HTTP `POST /api/player/join` endpoint. -/
inductive JoinResult where
  | notFound (error : String)
  | forbidden (error : String)
  | ok (redirect : String)
deriving DecidableEq, Repr

/-- `.toUpperCase()` of JS, modelled charwise (kernel-reducible form of
`String.toUpper`). -/
def upperStr (s : String) : String := ⟨s.data.map Char.toUpper⟩

/-- `LOWER(...)` of SQL / `.toLowerCase()` of JS, modelled charwise. -/
def lowerStr (s : String) : String := ⟨s.data.map Char.toLower⟩

/-- `SELECT * FROM rooms WHERE code=$1` (codes are unique, so `find?`). -/
def findRoom (s : ServerState) (rc : String) : Option Room :=
  s.rooms.find? (fun r => r.code == rc)

/-- `SELECT prompt FROM questions WHERE id=$1`. -/
def findQuestion (s : ServerState) (qid : Nat) : Option Question :=
  s.questions.find? (fun q => q.id == qid)

/-- Does a player row for `(LOWER(name), room_code)` already exist? -/
def playerExists (players : List Player) (rc name : String) : Bool :=
  players.any (fun p => p.roomCode == rc && lowerStr p.name == lowerStr name)

/-- The player table after a *successful*
`INSERT INTO players … ON CONFLICT (LOWER(name), room_code) DO NOTHING`:
no-op on a case-insensitive conflict, append otherwise.  The HTTP join
handler uses this directly because it has already verified that the room
exists, so its INSERT cannot violate the room foreign key. -/
def upsertPlayer (players : List Player) (rc name : String) : List Player :=
  if playerExists players rc name then players
  else players ++ [⟨name, rc, false⟩]

/-- Full Postgres semantics of the player INSERT statement, including
`players.room_code REFERENCES rooms(code)`: a conflicting row suppresses
the insert (a skipped row is never checked against the foreign key);
otherwise the row is inserted when the referenced room exists, and the
statement throws when it does not (`ON CONFLICT DO NOTHING` does not
absorb FK violations).  `none` models the throw. -/
def insertPlayer? (rooms : List Room) (players : List Player)
    (rc name : String) : Option (List Player) :=
  if playerExists players rc name then some players
  else if rooms.any (fun r => r.code == rc) then
    some (players ++ [⟨name, rc, false⟩])
  else none

/-- `UPDATE players SET submitted=true WHERE room_code=$1 AND LOWER(name)=LOWER($2)`. -/
def setSubmitted (players : List Player) (rc name : String) : List Player :=
  players.map (fun p =>
    if p.roomCode == rc && lowerStr p.name == lowerStr name then
      { p with submitted := true } else p)

/-- `UPDATE players SET submitted=false WHERE room_code=$1`. -/
def resetSubmitted (players : List Player) (rc : String) : List Player :=
  players.map (fun p => if p.roomCode == rc then { p with submitted := false } else p)

/-- `SELECT COUNT(*) FROM players WHERE room_code=$1`. -/
def countPlayers (s : ServerState) (rc : String) : Nat :=
  (s.players.filter (fun p => p.roomCode == rc)).length

/-- `SELECT COUNT(*) FROM players WHERE room_code=$1 AND submitted=true`. -/
def countSubmitted (s : ServerState) (rc : String) : Nat :=
  (s.players.filter (fun p => p.roomCode == rc && p.submitted)).length

/-- `UPDATE rooms SET current_round = current_round+1, active_question_id=$1
WHERE code=$2` — a single atomic SQL statement. -/
def bumpRound (rooms : List Room) (rc : String) (qid : Nat) : List Room :=
  rooms.map (fun r =>
    if r.code == rc then
      { r with currentRound := r.currentRound + 1, activeQuestionId := some qid }
    else r)

/-- The names collected from `io.sockets.adapter.rooms.get(roomCode)`:
handshake-query names of live sockets that joined the room. -/
def activeNames (s : ServerState) (rc : String) : List String :=
  (s.conns.filter (fun c => c.joinedRooms.contains rc)).filterMap (·.handshakeName)

/-- Ordering used for `ORDER BY name ASC` on player rows. -/
def playerLe (a b : Player) : Prop := a.name ≤ b.name

instance : DecidableRel playerLe := fun a b => String.decidableLE a.name b.name

/-- The merged list built by `emitPlayerList`: DB players of the room sorted
by name, each tagged `active` iff its exact name occurs in `activeNames`
(a case-sensitive `Array.includes`). -/
def mergedPlayerList (s : ServerState) (rc : String) : List PlayerEntry :=
  ((s.players.filter (fun p => p.roomCode == rc)).insertionSort playerLe).map
    (fun p => ⟨p.name, p.submitted, (activeNames s rc).contains p.name⟩)

/-- The `playerList` emission of `emitPlayerList(roomCode)`. -/
def emitPlayerList (s : ServerState) (rc : String) : Emit :=
  .playerList rc (mergedPlayerList s rc)

/-- `socket.join(rc)`: add `rc` to the connection's set of joined rooms. -/
def socketJoin (conns : List Conn) (cid : Nat) (rc : String) : List Conn :=
  conns.map (fun c =>
    if c.cid == cid then
      { c with joinedRooms := if c.joinedRooms.contains rc then c.joinedRooms
                              else c.joinedRooms ++ [rc] }
    else c)

/-- A socket disconnect: Socket.IO drops the connection (there is no
`disconnect` handler in the server, so no DB write and no broadcast). -/
def disconnectConn (s : ServerState) (cid : Nat) : ServerState :=
  { s with conns := s.conns.filter (fun c => c.cid != cid) }

/-- `SELECT answer FROM answers WHERE room_code=$1 AND LOWER(player_name)=LOWER($2)
AND question_id=$3 AND round_number=$4`, then `rows[0].answer` or `null`. -/
def queryOne (s : ServerState) (rc name : String) (qid round : Nat) : Option String :=
  ((s.answers.filter (fun a =>
      a.roomCode == rc && lowerStr a.playerName == lowerStr name &&
      a.questionId == qid && a.roundNumber == round)).head?).map (·.answer)

/-- Socket handler `joinLobby({roomCode, name})`: join the socket to the
room, attempt the player upsert, broadcast the merged list, and if a round
is active send a private `roundStarted` replay to this socket.  The player
INSERT throws on the `players.room_code` foreign key when the room does
not exist (the socket is already joined at that point), aborting the
handler with no row written and nothing emitted. -/
def joinLobby (s : ServerState) (cid : Nat) (roomCode name : String) :
    ServerState × List Emit :=
  let rc := (upperStr roomCode)
  let s1 := { s with conns := socketJoin s.conns cid rc }
  match insertPlayer? s1.rooms s1.players rc name with
  | none => (s1, [])  -- FK violation at the INSERT: the handler aborts
  | some players2 =>
    let s2 := { s1 with players := players2 }
    let e1 := emitPlayerList s2 rc
    match findRoom s2 rc with
    | none => (s2, [e1])
    | some room =>
      match room.activeQuestionId with
      | none => (s2, [e1])
      | some qid =>
        match findQuestion s2 qid with
        | none => (s2, [e1])  -- JS would throw on rows[0]; no further emission
        | some q =>
          (s2, [e1, .roundStartedPrivate cid
            ⟨qid, q.prompt, countPlayers s2 rc, room.currentRound,
              queryOne s2 rc name qid room.currentRound⟩])

/-- Ordering used for `ORDER BY sort_number ASC` (Postgres puts NULLs last
for ascending order). -/
def questionLe (a b : Question) : Prop :=
  match a.sortNumber, b.sortNumber with
  | some x, some y => x ≤ y
  | some _, none => True
  | none, some _ => False
  | none, none => True

instance : DecidableRel questionLe := fun a b => by
  unfold questionLe
  match a.sortNumber, b.sortNumber with
  | some x, some y => exact inferInstanceAs (Decidable (x ≤ y))
  | some _, none => exact inferInstanceAs (Decidable True)
  | none, some _ => exact inferInstanceAs (Decidable False)
  | none, none => exact inferInstanceAs (Decidable True)

/-- `SELECT id FROM questions ORDER BY sort_number ASC`. -/
def sortedQuestions (s : ServerState) : List Question :=
  s.questions.insertionSort questionLe

/-- The question picked by `startRound`:
`qr.rows[Math.floor(Math.random()*qr.rows.length)]`, with the random draw
modelled by the oracle `k`. Only meaningful when the catalog is non-empty. -/
def pickQuestion (s : ServerState) (k : Nat) : Question :=
  (sortedQuestions s).getD (k % (sortedQuestions s).length) ⟨0, "", none⟩

/-- Socket handler `startRound({roomCode})`: no-op on an empty catalog;
otherwise pick a question, atomically bump the round and bind the question,
reset all submitted flags of the room, broadcast the merged list and the
new round. -/
def startRound (s : ServerState) (k : Nat) (roomCode : String) :
    ServerState × List Emit :=
  let rc := (upperStr roomCode)
  if (sortedQuestions s).isEmpty then (s, [])
  else
    let qid := (pickQuestion s k).id
    match findQuestion s qid with
    | none => (s, [])  -- unreachable: the picked id comes from the catalog
    | some q =>
      let s1 := { s with rooms := bumpRound s.rooms rc qid }
      let s2 := { s1 with players := resetSubmitted s1.players rc }
      let e1 := emitPlayerList s2 rc
      match findRoom s2 rc with
      | none => (s2, [e1])  -- JS would throw on rows[0]; no further emission
      | some room =>
        (s2, [e1, .roundStartedRoom rc
          ⟨qid, q.prompt, countPlayers s2 rc, room.currentRound, none⟩])

/-- Socket handler `submitAnswer({roomCode, name, questionId, answer})`.
The stale-question guard drops the event unless the room exists and
`questionId` equals `active_question_id`.  The insert into `answers` uses
`ON CONFLICT DO NOTHING`, but the table has no unique key on the tuple, so
when it succeeds it always appends a row; it throws on the
`answers.question_id REFERENCES questions(id)` foreign key when the active
question has been deleted from the catalog (possible via
`DELETE /api/questions/:id`, since `rooms.active_question_id` has no FK),
aborting the handler before the `submitted` update and every emission. -/
def submitAnswer (s : ServerState) (roomCode name : String)
    (questionId : Nat) (answer : String) : ServerState × List Emit :=
  let rc := (upperStr roomCode)
  match findRoom s rc with
  | none => (s, [])
  | some room =>
    if room.activeQuestionId = some questionId then
      if s.questions.any (fun q => q.id == questionId) then
        let s1 := { s with answers :=
          s.answers ++ [(⟨rc, name, questionId, room.currentRound, answer⟩ : AnswerRow)] }
        let s2 := { s1 with players := setSubmitted s1.players rc name }
        let e1 := emitPlayerList s2 rc
        let sub := countSubmitted s2 rc
        let tot := countPlayers s2 rc
        if sub = tot then
          (s2, [e1, .submissionProgress rc sub tot, .allSubmitted rc])
        else
          (s2, [e1, .submissionProgress rc sub tot])
      else (s, [])  -- FK violation at the INSERT: the handler aborts
    else (s, [])

/-- The durable state after an accepted `submitAnswer` for round `round`:
the (unconditionally) appended ledger row and the submitted flag. -/
def postSubmitState (s : ServerState) (rc name : String) (qid round : Nat)
    (answer : String) : ServerState :=
  { s with answers := s.answers ++ [(⟨rc, name, qid, round, answer⟩ : AnswerRow)],
           players := setSubmitted s.players rc name }

/-- Ordering used for `ORDER BY name ASC` on answer rows. -/
def answerLe (a b : AnswerRow) : Prop := a.playerName ≤ b.playerName

instance : DecidableRel answerLe := fun a b =>
  String.decidableLE a.playerName b.playerName

instance : IsTotal AnswerRow answerLe :=
  ⟨fun a b => le_total a.playerName b.playerName⟩

instance : IsTrans AnswerRow answerLe :=
  ⟨fun _ _ _ hab hbc => le_trans hab hbc⟩

/-- The ledger rows of an exact `(room_code, question_id, round_number)`
tuple, in insertion order. -/
def tupleRows (s : ServerState) (rc : String) (qid round : Nat) : List AnswerRow :=
  s.answers.filter (fun a =>
    a.roomCode == rc && a.questionId == qid && a.roundNumber == round)

/-- `SELECT player_name AS name, answer FROM answers WHERE room_code=$1 AND
question_id=$2 AND round_number=$3 ORDER BY name ASC`. -/
def queryAnswers (s : ServerState) (rc : String) (qid round : Nat) :
    List (String × String) :=
  ((tupleRows s rc qid round).insertionSort answerLe).map
    (fun a => (a.playerName, a.answer))

/-- Socket handler `showAnswers({roomCode})`: silently dropped unless the
room exists and has an active question; otherwise broadcast the ledger rows
of the current (question, round), ordered by player name. -/
def showAnswers (s : ServerState) (roomCode : String) : ServerState × List Emit :=
  let rc := (upperStr roomCode)
  match findRoom s rc with
  | none => (s, [])
  | some room =>
    match room.activeQuestionId with
    | none => (s, [])
    | some qid =>
      (s, [.answersRevealed rc (queryAnswers s rc qid room.currentRound)])

/-- HTTP handler `POST /api/player/join`: 404 for an unknown room, 403 for a
closed room, otherwise upsert the player and redirect. -/
def httpPlayerJoin (s : ServerState) (name roomCode : String) :
    ServerState × JoinResult :=
  let rc := (upperStr roomCode)
  match findRoom s rc with
  | none => (s, .notFound "Room not found")
  | some room =>
    if room.status == "closed" then (s, .forbidden "Room closed")
    else ({ s with players := upsertPlayer s.players rc name },
          .ok ("/player-board.html?room=" ++ rc ++ "&name=" ++ name))

/-! ## Atomic durable-store operations

The server performs each DB write as one SQL statement, executed atomically
by the store.  Concurrent handlers for the same room may interleave at the
`await` suspension points, i.e. between these atomic statements, but never
inside one.  `DbOp` enumerates the write statements issued by the handlers;
in particular the only statement ever touching `current_round` is
`incrRound`, the single atomic read-modify-write
`UPDATE rooms SET current_round = current_round+1, active_question_id=$1`.
-/

/-- One atomic SQL write statement, as issued by the handlers. -/
inductive DbOp where
  | incrRound (rc : String) (qid : Nat)
  | opResetSubmitted (rc : String)
  | opSetSubmitted (rc name : String)
  | opInsertPlayer (rc name : String)
  | opInsertAnswer (row : AnswerRow)
  | opInsertRoom (rc status : String)
  | opSetStatus (rc status : String)
deriving DecidableEq, Repr

/-- `INSERT INTO rooms (code, status) VALUES ($1,$2) ON CONFLICT (code) DO NOTHING`. -/
def insertRoom (rooms : List Room) (rc status : String) : List Room :=
  if rooms.any (fun r => r.code == rc) then rooms
  else rooms ++ [⟨rc, status, 0, none⟩]

/-- `UPDATE rooms SET status=$1 WHERE code=$2`. -/
def setStatus (rooms : List Room) (rc status : String) : List Room :=
  rooms.map (fun r => if r.code == rc then { r with status := status } else r)

/-- Interpret one atomic write statement on the server state. -/
def applyDbOp (s : ServerState) : DbOp → ServerState
  | .incrRound rc qid => { s with rooms := bumpRound s.rooms rc qid }
  | .opResetSubmitted rc => { s with players := resetSubmitted s.players rc }
  | .opSetSubmitted rc name => { s with players := setSubmitted s.players rc name }
  | .opInsertPlayer rc name => { s with players := upsertPlayer s.players rc name }
  | .opInsertAnswer row => { s with answers := s.answers ++ [row] }
  | .opInsertRoom rc status => { s with rooms := insertRoom s.rooms rc status }
  | .opSetStatus rc status => { s with rooms := setStatus s.rooms rc status }

/-- The write statements of one `startRound` handler execution that picked
question `qid` for room `rc`. -/
def startRoundOps (rc : String) (qid : Nat) : List DbOp :=
  [.incrRound rc qid, .opResetSubmitted rc]

/-- The stored round counter of room `rc`, when the room exists. -/
def roundOf (s : ServerState) (rc : String) : Option Nat :=
  (findRoom s rc).map (·.currentRound)

/-- The round values assigned to room `rc` along a sequence of atomic write
statements: each `incrRound rc _` executed while the room exists assigns
the fresh value `r+1` (the `UPDATE` matches no row, and assigns nothing,
when the room does not exist). -/
def assignedRounds (s : ServerState) (rc : String) : List DbOp → List Nat
  | [] => []
  | op :: ops =>
    let rest := assignedRounds (applyDbOp s op) rc ops
    match op with
    | .incrRound rc' _ =>
      if rc' = rc then
        match roundOf s rc with
        | some r => (r + 1) :: rest
        | none => rest
      else rest
    | _ => rest

/-! ## Spec-side (refinement) definitions

The following definitions are written from the specification's words, not
from the source; they exist only to be compared with the behaviour of the
source-derived definitions above. -/

/-- Spec-side: the roster entries of the room that are currently connected,
joining roster and presence by case-insensitive name (spec §4.4:
"join the durable Player roster … with the live Presence set … by
case-insensitive name"). -/
def specConnectedRoster (s : ServerState) (rc : String) : List Player :=
  s.players.filter (fun p =>
    p.roomCode == rc &&
    (activeNames s rc).any (fun n => lowerStr n == lowerStr p.name))

/-- Spec-side: `activeCount` = count of roster entries whose name is in the
live presence set. -/
def specActiveCount (s : ServerState) (rc : String) : Nat :=
  (specConnectedRoster s rc).length

/-- Spec-side: `submittedActiveCount` = count of roster entries that are
both active and submitted. -/
def specSubmittedActiveCount (s : ServerState) (rc : String) : Nat :=
  ((specConnectedRoster s rc).filter (·.submitted)).length

/-! ## Derived observation helpers -/

/-- Is some live connection joined to `rc` whose handshake name is exactly
(case-sensitively) `name`? -/
def liveExact (s : ServerState) (rc name : String) : Bool :=
  s.conns.any (fun c => c.joinedRooms.contains rc && c.handshakeName == some name)

/-- Every player row of room `rc` has `submitted = false`. -/
def allUnsubmitted (players : List Player) (rc : String) : Bool :=
  players.all (fun p => p.roomCode != rc || !p.submitted)

/-- The emissions a `joinLobby` handler can produce (no rejection exists). -/
def isLobbyEmit : Emit → Bool
  | .playerList _ _ => true
  | .roundStartedPrivate _ _ => true
  | _ => false

/-- The first private `roundStarted` payload addressed to socket `cid`
among the emissions `es`. -/
def replayOf (es : List Emit) (cid : Nat) : Option RoundPayload :=
  (es.filterMap (fun e =>
    match e with
    | .roundStartedPrivate c p => if c == cid then some p else none
    | _ => none)).head?

/-- Adjacent-pairs check that a name/answer list is ordered by name. -/
def namesSorted : List (String × String) → Bool
  | [] => true
  | [_] => true
  | a :: b :: t => decide (a.1 ≤ b.1) && namesSorted (b :: t)

/-! ## Concrete states used by counterexamples and witnesses -/

/-- A room with an active round and one roster player; no live sockets. -/
def dupState : ServerState :=
  { rooms := [⟨"R", "open", 1, some 1⟩],
    players := [⟨"Alice", "R", false⟩],
    questions := [⟨1, "P", none⟩],
    answers := [],
    conns := [] }

/-- The state after Alice submits twice for the same
(room, player, question, round) tuple with two different texts. -/
def dupTwice : ServerState :=
  (submitAnswer (submitAnswer dupState "R" "Alice" 1 "foo").1 "R" "Alice" 1 "bar").1

/-- Round active; Alice is live, Bob is in the roster but disconnected and
has not submitted. -/
def blockState : ServerState :=
  { rooms := [⟨"R", "open", 1, some 1⟩],
    players := [⟨"Alice", "R", false⟩, ⟨"Bob", "R", false⟩],
    questions := [⟨1, "P", none⟩],
    answers := [],
    conns := [⟨1, some "Alice", ["R"]⟩] }

/-- Round active, empty roster, nobody connected. -/
def ghostState : ServerState :=
  { rooms := [⟨"R", "open", 1, some 1⟩],
    players := [],
    questions := [⟨1, "P", none⟩],
    answers := [],
    conns := [] }

/-- Roster row stored as "Bob"; the only live socket's handshake name is
the lowercase "bob". -/
def caseState : ServerState :=
  { rooms := [⟨"R", "open", 0, none⟩],
    players := [⟨"Bob", "R", false⟩],
    questions := [],
    answers := [],
    conns := [⟨2, some "bob", ["R"]⟩] }

/-- A live socket whose handshake name matches the roster row exactly. -/
def caseExactState : ServerState :=
  { rooms := [⟨"R", "open", 0, none⟩],
    players := [⟨"Bob", "R", false⟩],
    questions := [],
    answers := [],
    conns := [⟨2, some "Bob", ["R"]⟩] }

/-- An open room, a round in progress with a recorded answer for Alice,
one live socket. -/
def replayState : ServerState :=
  { rooms := [⟨"R", "open", 2, some 1⟩],
    players := [⟨"Alice", "R", true⟩],
    questions := [⟨1, "Prompt A", none⟩],
    answers := [⟨"R", "Alice", 1, 2, "foo"⟩],
    conns := [⟨1, some "Alice", ["R"]⟩, ⟨7, some "Alice", []⟩] }

/-- A closed room next to an open one. -/
def closedState : ServerState :=
  { rooms := [⟨"R", "closed", 0, none⟩],
    players := [],
    questions := [],
    answers := [],
    conns := [⟨1, some "Eve", []⟩] }

/-- No rooms at all; one live socket. -/
def noRoomState : ServerState :=
  { rooms := [],
    players := [],
    questions := [],
    answers := [],
    conns := [⟨1, some "Eve", []⟩] }

/-- Catalog of one question, a fresh open room, one roster player. -/
def freshState : ServerState :=
  { rooms := [⟨"R", "open", 0, none⟩],
    players := [⟨"Alice", "R", true⟩],
    questions := [⟨1, "Prompt A", none⟩],
    answers := [],
    conns := [] }

/-- A state whose question catalog is empty. -/
def noCatalogState : ServerState :=
  { rooms := [⟨"R", "open", 3, some 9⟩],
    players := [⟨"Alice", "R", true⟩],
    questions := [],
    answers := [],
    conns := [] }

/-- Round active with two recorded answers, names out of order. -/
def revealState : ServerState :=
  { rooms := [⟨"R", "open", 1, some 1⟩],
    players := [⟨"Bea", "R", true⟩, ⟨"Al", "R", true⟩],
    questions := [⟨1, "P", none⟩],
    answers := [⟨"R", "Bea", 1, 1, "y"⟩, ⟨"R", "Al", 1, 1, "x"⟩, ⟨"R", "Al", 2, 1, "stale"⟩],
    conns := [] }

/-- An open room whose active question is `1`, for the stale-drop witness. -/
def staleState : ServerState :=
  { rooms := [⟨"R", "open", 1, some 1⟩],
    players := [⟨"Bob", "R", false⟩],
    questions := [⟨1, "P", none⟩, ⟨2, "Q", none⟩],
    answers := [],
    conns := [] }

/-! ## Theorems -/

/-- C2: the claim that a duplicate `submitAnswer` leaves exactly one ledger
row for its tuple fails on the code.  The `answers` table declares no
unique constraint on `(room_code, player_name, question_id, round_number)`,
so the `ON CONFLICT DO NOTHING` clause never fires: after Alice submits
twice for the same (room, player, question, round) tuple, the ledger holds
two rows for that tuple. -/
theorem duplicate_submit_appends_second_row :
    (dupTwice.answers.filter (fun a =>
      a.roomCode == "R" && a.playerName == "Alice" &&
      a.questionId == 1 && a.roundNumber == 1)).length = 2 ∧
    dupTwice.answers =
      [⟨"R", "Alice", 1, 1, "foo"⟩, ⟨"R", "Alice", 1, 1, "bar"⟩] := by
  constructor <;> rfl

/-- `submitAnswer` on an unknown room changes nothing and emits nothing. -/
theorem submitAnswer_drop_none (s : ServerState) (roomCode name : String)
    (questionId : Nat) (answer : String)
    (hfr : findRoom s (upperStr roomCode) = none) :
    submitAnswer s roomCode name questionId answer = (s, []) := by
  unfold submitAnswer
  simp only []
  rw [hfr]

/-- `submitAnswer` with a non-matching question id changes nothing and
emits nothing. -/
theorem submitAnswer_drop_stale (s : ServerState) (roomCode name : String)
    (questionId : Nat) (answer : String) (room : Room)
    (hfr : findRoom s (upperStr roomCode) = some room)
    (hq : ¬room.activeQuestionId = some questionId) :
    submitAnswer s roomCode name questionId answer = (s, []) := by
  unfold submitAnswer
  simp only []
  rw [hfr]
  simp only [hq, if_false]

/-- `submitAnswer` past the stale guard whose question id is still in the
catalog (so the answers INSERT succeeds): the ledger row is appended and
the flag set, then the progress emissions, with `allSubmitted` exactly
when the two full-roster counts agree. -/
theorem submitAnswer_accepted (s : ServerState) (roomCode name : String)
    (questionId : Nat) (answer : String) (room : Room)
    (hfr : findRoom s (upperStr roomCode) = some room)
    (hq : room.activeQuestionId = some questionId)
    (hfk : (s.questions.any (fun q => q.id == questionId)) = true) :
    submitAnswer s roomCode name questionId answer =
      (postSubmitState s (upperStr roomCode) name questionId room.currentRound answer,
        if countSubmitted
            (postSubmitState s (upperStr roomCode) name questionId room.currentRound answer)
            (upperStr roomCode) =
          countPlayers
            (postSubmitState s (upperStr roomCode) name questionId room.currentRound answer)
            (upperStr roomCode) then
          [emitPlayerList
              (postSubmitState s (upperStr roomCode) name questionId room.currentRound answer)
              (upperStr roomCode),
            Emit.submissionProgress (upperStr roomCode)
              (countSubmitted
                (postSubmitState s (upperStr roomCode) name questionId room.currentRound answer)
                (upperStr roomCode))
              (countPlayers
                (postSubmitState s (upperStr roomCode) name questionId room.currentRound answer)
                (upperStr roomCode)),
            Emit.allSubmitted (upperStr roomCode)]
        else
          [emitPlayerList
              (postSubmitState s (upperStr roomCode) name questionId room.currentRound answer)
              (upperStr roomCode),
            Emit.submissionProgress (upperStr roomCode)
              (countSubmitted
                (postSubmitState s (upperStr roomCode) name questionId room.currentRound answer)
                (upperStr roomCode))
              (countPlayers
                (postSubmitState s (upperStr roomCode) name questionId room.currentRound answer)
                (upperStr roomCode))]) := by
  unfold submitAnswer postSubmitState
  simp only []
  rw [hfr]
  simp only [hq, hfk, eq_self_iff_true, if_true]
  split <;> rfl

/-- `submitAnswer` past the stale guard whose question id is missing from
the catalog: the answers INSERT violates its foreign key and the handler
aborts with no write and no emission. -/
theorem submitAnswer_drop_fk (s : ServerState) (roomCode name : String)
    (questionId : Nat) (answer : String) (room : Room)
    (hfr : findRoom s (upperStr roomCode) = some room)
    (hq : room.activeQuestionId = some questionId)
    (hfk : (s.questions.any (fun q => q.id == questionId)) = false) :
    submitAnswer s roomCode name questionId answer = (s, []) := by
  unfold submitAnswer
  simp only []
  rw [hfr]
  simp only [hq, eq_self_iff_true, if_true, hfk, Bool.false_eq_true, if_false]

/-- C6: a `submitAnswer` whose `questionId` is not the room's current
`active_question_id` — in particular when the room does not exist — is
dropped without error: the state is unchanged and nothing is emitted. -/
theorem submitAnswer_stale_drop (s : ServerState) (roomCode name : String)
    (questionId : Nat) (answer : String)
    (h : (findRoom s (upperStr roomCode)).all
      (fun room => room.activeQuestionId != some questionId) = true) :
    submitAnswer s roomCode name questionId answer = (s, []) := by
  cases hfr : findRoom s (upperStr roomCode) with
  | none => exact submitAnswer_drop_none s roomCode name questionId answer hfr
  | some room =>
    rw [hfr] at h
    simp only [Option.all, bne_iff_ne, ne_eq] at h
    exact submitAnswer_drop_stale s roomCode name questionId answer room hfr h

/-- C6 witness: Bob submits for question 2 while the active question is 1;
the event is dropped. -/
theorem submitAnswer_stale_drop_witness :
    submitAnswer staleState "R" "Bob" 2 "late" = (staleState, []) :=
  submitAnswer_stale_drop staleState "R" "Bob" 2 "late" (by decide)

/-- C9: the HTTP join endpoint rejects an unknown room with a 404
"Room not found" and a closed room with a 403 "Room closed", in both cases
leaving the state (in particular the player roster) unchanged. -/
theorem httpJoin_rejects (s : ServerState) (name roomCode : String) :
    (findRoom s (upperStr roomCode) = none →
      httpPlayerJoin s name roomCode = (s, .notFound "Room not found")) ∧
    (∀ room, findRoom s (upperStr roomCode) = some room → room.status = "closed" →
      httpPlayerJoin s name roomCode = (s, .forbidden "Room closed")) := by
  refine ⟨fun h => ?_, fun room hr hc => ?_⟩
  · unfold httpPlayerJoin
    simp only []
    rw [h]
  · unfold httpPlayerJoin
    simp only []
    rw [hr]
    simp [hc]

/-- C9 witness: joining the unknown room "Z" is a 404 and joining the
closed room "R" is a 403, with no state change in either case. -/
theorem httpJoin_rejects_witness :
    httpPlayerJoin noRoomState "Eve" "Z" = (noRoomState, .notFound "Room not found") ∧
    httpPlayerJoin closedState "Eve" "R" = (closedState, .forbidden "Room closed") :=
  ⟨(httpJoin_rejects noRoomState "Eve" "Z").1 (by decide),
   (httpJoin_rejects closedState "Eve" "R").2 ⟨"R", "closed", 0, none⟩ (by decide) rfl⟩

/-- After `socket.join`, the connection with id `cid` is subscribed to `rc`. -/
theorem socketJoin_subscribes (conns : List Conn) (cid : Nat) (rc : String) :
    (socketJoin conns cid rc).all
      (fun c => c.cid != cid || c.joinedRooms.contains rc) = true := by
  unfold socketJoin
  rw [List.all_eq_true]
  intro c hc
  rw [List.mem_map] at hc
  obtain ⟨c0, -, rfl⟩ := hc
  by_cases hcid : (c0.cid == cid) = true
  · rw [if_pos hcid]
    simp only [Bool.or_eq_true]
    right
    by_cases hjr : rc ∈ c0.joinedRooms
    · simp [hjr]
    · simp [hjr]
  · rw [if_neg hcid]
    simp [bne, hcid]

/-- After the upsert, a player row for the (case-insensitive) name exists. -/
theorem upsertPlayer_exists (players : List Player) (rc name : String) :
    playerExists (upsertPlayer players rc name) rc name = true := by
  unfold upsertPlayer
  by_cases hex : playerExists players rc name = true
  · simp [hex]
  · simp only [hex, if_neg, Bool.false_eq_true, not_false_eq_true, if_false]
    unfold playerExists
    rw [List.any_eq_true]
    exact ⟨⟨name, rc, false⟩, List.mem_append_right _ (List.mem_singleton.mpr rfl),
      by simp⟩

/-- A found room makes the `any`-by-code check true. -/
theorem rooms_any_of_findRoom (s : ServerState) (rc : String) (room : Room)
    (h : findRoom s rc = some room) :
    (s.rooms.any (fun r => r.code == rc)) = true := by
  have h2 : List.find? (fun r => r.code == rc) s.rooms = some room := h
  have h3 := List.find?_some h2
  rw [List.any_eq_true]
  exact ⟨room, List.mem_of_find?_eq_some h2, h3⟩

/-- An absent room makes the `any`-by-code check false. -/
theorem rooms_any_of_findRoom_none (s : ServerState) (rc : String)
    (h : findRoom s rc = none) :
    (s.rooms.any (fun r => r.code == rc)) = false := by
  have h2 : List.find? (fun r => r.code == rc) s.rooms = none := h
  rw [List.find?_eq_none] at h2
  rw [Bool.eq_false_iff]
  intro hany
  rw [List.any_eq_true] at hany
  obtain ⟨r, hmem, hp⟩ := hany
  exact h2 r hmem hp

/-- When the referenced room exists, the player INSERT succeeds and leaves
exactly the upserted table. -/
theorem insertPlayer?_of_room (rooms : List Room) (players : List Player)
    (rc name : String) (hex : (rooms.any (fun r => r.code == rc)) = true) :
    insertPlayer? rooms players rc name = some (upsertPlayer players rc name) := by
  unfold insertPlayer? upsertPlayer
  by_cases hp : playerExists players rc name = true
  · rw [if_pos hp, if_pos hp]
  · rw [if_neg hp, if_neg hp, if_pos hex]

/-- In every branch of `joinLobby` — including the FK abort — the socket
has already joined the room. -/
theorem joinLobby_conns (s : ServerState) (cid : Nat) (roomCode name : String) :
    (joinLobby s cid roomCode name).1.conns =
      socketJoin s.conns cid (upperStr roomCode) := by
  unfold joinLobby
  simp only []
  split
  · rfl
  · split
    · rfl
    · split
      · rfl
      · split <;> rfl

/-- Every emission `joinLobby` can produce is a `playerList` or a private
`roundStarted`; no rejection of any kind exists. -/
theorem joinLobby_emits_lobby (s : ServerState) (cid : Nat)
    (roomCode name : String) :
    (joinLobby s cid roomCode name).2.all isLobbyEmit = true := by
  unfold joinLobby emitPlayerList
  simp only []
  split
  · rfl
  · split
    · rfl
    · split
      · rfl
      · split <;> rfl

/-- The durable effect of `joinLobby` when the room exists (so the player
INSERT succeeds): the socket is joined to the room and the player row is
upserted; no other state changes. -/
theorem joinLobby_fst (s : ServerState) (cid : Nat) (roomCode name : String)
    (hex : (s.rooms.any (fun r => r.code == upperStr roomCode)) = true) :
    (joinLobby s cid roomCode name).1 =
      { s with conns := socketJoin s.conns cid (upperStr roomCode),
               players := upsertPlayer s.players (upperStr roomCode) name } := by
  unfold joinLobby
  simp only []
  rw [insertPlayer?_of_room s.rooms s.players (upperStr roomCode) name hex]
  simp only []
  split
  · rfl
  · split
    · rfl
    · split <;> rfl

/-- The emissions of `joinLobby` when the room exists: the merged player
list, optionally followed by a single private `roundStarted` replay. -/
theorem joinLobby_snd (s : ServerState) (cid : Nat) (roomCode name : String)
    (hex : (s.rooms.any (fun r => r.code == upperStr roomCode)) = true) :
    ∃ rest, (joinLobby s cid roomCode name).2 =
      Emit.playerList (upperStr roomCode)
        (mergedPlayerList (joinLobby s cid roomCode name).1 (upperStr roomCode)) :: rest ∧
      (rest = [] ∨ ∃ c p, rest = [Emit.roundStartedPrivate c p]) := by
  unfold joinLobby emitPlayerList
  simp only []
  rw [insertPlayer?_of_room s.rooms s.players (upperStr roomCode) name hex]
  simp only []
  split
  · exact ⟨[], rfl, Or.inl rfl⟩
  · split
    · exact ⟨[], rfl, Or.inl rfl⟩
    · split
      · exact ⟨[], rfl, Or.inl rfl⟩
      · exact ⟨[_], rfl, Or.inr ⟨_, _, rfl⟩⟩

/-- `joinLobby` on an unknown room (which, under the store's FK invariant,
has no player rows): the socket is joined, then the player INSERT throws
on the room foreign key and the handler aborts — no Player row is created
and nothing at all is emitted. -/
theorem joinLobby_fk_abort (s : ServerState) (cid : Nat)
    (roomCode name : String)
    (hex : (s.rooms.any (fun r => r.code == upperStr roomCode)) = false)
    (hp : playerExists s.players (upperStr roomCode) name = false) :
    joinLobby s cid roomCode name =
      ({ s with conns := socketJoin s.conns cid (upperStr roomCode) }, []) := by
  unfold joinLobby
  simp only []
  have hins : insertPlayer? s.rooms s.players (upperStr roomCode) name = none := by
    unfold insertPlayer?
    rw [hp, hex]
    rfl
  rw [hins]

/-- C10: the socket-level `joinLobby` performs no room validation and never
sends a rejection.  The socket is subscribed to the requested room before
the player INSERT in every case, and every possible emission is a
`playerList` or a private `roundStarted` (no rejection event exists).  A
closed room is not rejected: the player upsert succeeds and the merged
player list is broadcast exactly as for an open room.  An unknown room is
not rejected either: the upsert is attempted and aborted by the durable
store's foreign key — no Player row, and the handler throws before any
emission — so the requester receives nothing; only the separate HTTP join
endpoint rejects the unknown room. -/
theorem joinLobby_no_room_validation (s : ServerState) (cid : Nat)
    (roomCode name : String) :
    ((joinLobby s cid roomCode name).1.conns.all
      (fun c => c.cid != cid || c.joinedRooms.contains (upperStr roomCode)) = true) ∧
    ((joinLobby s cid roomCode name).2.all isLobbyEmit = true) ∧
    (∀ room, findRoom s (upperStr roomCode) = some room →
      room.status = "closed" →
      playerExists (joinLobby s cid roomCode name).1.players
        (upperStr roomCode) name = true ∧
      Emit.playerList (upperStr roomCode)
        (mergedPlayerList (joinLobby s cid roomCode name).1 (upperStr roomCode))
        ∈ (joinLobby s cid roomCode name).2) ∧
    (findRoom s (upperStr roomCode) = none →
      playerExists s.players (upperStr roomCode) name = false →
      joinLobby s cid roomCode name =
        ({ s with conns := socketJoin s.conns cid (upperStr roomCode) }, []) ∧
      httpPlayerJoin s name roomCode = (s, .notFound "Room not found")) := by
  refine ⟨?_, joinLobby_emits_lobby s cid roomCode name,
    fun room hroom _ => ?_, fun hn hp => ⟨?_, ?_⟩⟩
  · rw [joinLobby_conns]
    exact socketJoin_subscribes s.conns cid (upperStr roomCode)
  · have hex := rooms_any_of_findRoom s (upperStr roomCode) room hroom
    constructor
    · rw [joinLobby_fst s cid roomCode name hex]
      exact upsertPlayer_exists s.players (upperStr roomCode) name
    · obtain ⟨rest, hsnd, -⟩ := joinLobby_snd s cid roomCode name hex
      rw [hsnd]
      exact List.mem_cons_self _ _
  · exact joinLobby_fk_abort s cid roomCode name
      (rooms_any_of_findRoom_none s (upperStr roomCode) hn) hp
  · unfold httpPlayerJoin
    simp only []
    rw [hn]

/-- C10 witness: joining the nonexistent room "Q" over the socket leaves
the socket subscribed, creates no row and emits nothing, while the HTTP
endpoint rejects it; joining the closed room "R" goes through with the
row upserted. -/
theorem joinLobby_no_room_validation_witness :
    (joinLobby noRoomState 1 "Q" "Eve" =
      ({ noRoomState with
          conns := socketJoin noRoomState.conns 1 (upperStr "Q") }, []) ∧
     httpPlayerJoin noRoomState "Eve" "Q" = (noRoomState, .notFound "Room not found")) ∧
    (playerExists (joinLobby closedState 1 "R" "Eve").1.players
        (upperStr "R") "Eve" = true ∧
     Emit.playerList (upperStr "R")
       (mergedPlayerList (joinLobby closedState 1 "R" "Eve").1 (upperStr "R"))
       ∈ (joinLobby closedState 1 "R" "Eve").2) :=
  ⟨(joinLobby_no_room_validation noRoomState 1 "Q" "Eve").2.2.2
      (by decide) (by decide),
   (joinLobby_no_room_validation closedState 1 "R" "Eve").2.2.1
      ⟨"R", "closed", 0, none⟩ (by decide) rfl⟩

/-- C1 as stated fails on the code, in both directions.  Left: in
`blockState` the connected roster players are exactly Alice, who submits,
so the claim requires `allSubmitted` — but the code compares full-roster
counts (1 of 2 submitted, the disconnected Bob counts) and does not emit
it.  Right: in `ghostState` no roster player is connected (the claim's
positivity condition fails), yet the code emits `allSubmitted` because
both full-roster counts are 0. -/
theorem allSubmitted_not_presence_based :
    (0 < specActiveCount (submitAnswer blockState "R" "Alice" 1 "foo").1 "R" ∧
     specSubmittedActiveCount (submitAnswer blockState "R" "Alice" 1 "foo").1 "R" =
       specActiveCount (submitAnswer blockState "R" "Alice" 1 "foo").1 "R" ∧
     Emit.allSubmitted "R" ∉ (submitAnswer blockState "R" "Alice" 1 "foo").2) ∧
    (specActiveCount (submitAnswer ghostState "R" "Ghost" 1 "x").1 "R" = 0 ∧
     Emit.allSubmitted "R" ∈ (submitAnswer ghostState "R" "Ghost" 1 "x").2) := by
  decide

/-- C1 (amended): after every `submitAnswer`, `allSubmitted` is emitted to
the room exactly when the event passed the stale-question guard, the
answers INSERT succeeded (the active question is still in the catalog;
otherwise the FK violation aborts the handler with no emission), and the
count of roster players of the room with `submitted = true` equals the
total roster count — both counts over the full durable roster (connected
or not), with no positivity requirement. -/
theorem allSubmitted_iff_full_roster_counts (s : ServerState)
    (roomCode name : String) (questionId : Nat) (answer : String) :
    Emit.allSubmitted (upperStr roomCode)
        ∈ (submitAnswer s roomCode name questionId answer).2 ↔
      ((findRoom s (upperStr roomCode)).any
          (fun room => room.activeQuestionId == some questionId) = true ∧
        (s.questions.any (fun q => q.id == questionId)) = true ∧
        countSubmitted (submitAnswer s roomCode name questionId answer).1
            (upperStr roomCode) =
          countPlayers (submitAnswer s roomCode name questionId answer).1
            (upperStr roomCode)) := by
  cases hfr : findRoom s (upperStr roomCode) with
  | none =>
    rw [submitAnswer_drop_none s roomCode name questionId answer hfr]
    simp [Option.any]
  | some room =>
    by_cases hq : room.activeQuestionId = some questionId
    · by_cases hfk : (s.questions.any (fun q => q.id == questionId)) = true
      · rw [submitAnswer_accepted s roomCode name questionId answer room hfr hq hfk]
        by_cases hc : countSubmitted
              (postSubmitState s (upperStr roomCode) name questionId
                room.currentRound answer) (upperStr roomCode) =
            countPlayers
              (postSubmitState s (upperStr roomCode) name questionId
                room.currentRound answer) (upperStr roomCode)
        · simp [hc, Option.any, hq, hfk]
        · simp [hc, Option.any, hq, hfk, emitPlayerList]
      · have hfk2 : (s.questions.any (fun q => q.id == questionId)) = false :=
          Bool.eq_false_iff.mpr hfk
        rw [submitAnswer_drop_fk s roomCode name questionId answer room hfr hq hfk2]
        simp [Option.any, hq, hfk2]
    · rw [submitAnswer_drop_stale s roomCode name questionId answer room hfr hq]
      simp [Option.any, hq]

/-- Over `filter`/`filterMap`, membership of a name in the handshake names
of the room's sockets is exactly `liveExact`-style `any`. -/
theorem contains_activeNames (conns : List Conn) (rc name : String) :
    (((conns.filter (fun c => c.joinedRooms.contains rc)).filterMap
        (·.handshakeName)).contains name)
      = conns.any (fun c =>
          c.joinedRooms.contains rc && c.handshakeName == some name) := by
  rw [Bool.eq_iff_iff]
  simp only [List.contains_iff_exists_mem_beq, List.mem_filterMap,
    List.mem_filter, List.any_eq_true, Bool.and_eq_true, beq_iff_eq]
  aesop

/-- C3 as stated fails on the code: the merge is by exact, case-sensitive
string equality.  In `caseState` the roster row is "Bob" and the only live
socket in the room carries the case-insensitively equal handshake name
"bob", yet the broadcast entry has `active := false`. -/
theorem playerList_active_case_sensitive_cex :
    mergedPlayerList caseState "R" =
      [(⟨"Bob", false, false⟩ : PlayerEntry)] ∧
    caseState.conns.any (fun c => c.joinedRooms.contains "R" &&
      (c.handshakeName.map lowerStr) == some (lowerStr "Bob")) = true := by
  decide

/-- C3 (amended): in every merged player-list broadcast, a roster entry's
`active` flag is true iff at least one live connection has joined the room
and carries a handshake-query name exactly (case-sensitively) equal to the
roster entry's stored name. -/
theorem playerList_active_iff_exact_live_name (s : ServerState) (rc : String)
    (e : PlayerEntry) (he : e ∈ mergedPlayerList s rc) :
    e.active = liveExact s rc e.name := by
  unfold mergedPlayerList at he
  rw [List.mem_map] at he
  obtain ⟨p, -, rfl⟩ := he
  show (activeNames s rc).contains p.name = liveExact s rc p.name
  unfold activeNames liveExact
  exact contains_activeNames s.conns rc p.name

/-- C3 witness: with an exactly matching handshake name the broadcast entry
is active. -/
theorem playerList_active_iff_exact_live_name_witness :
    (⟨"Bob", false, true⟩ : PlayerEntry).active =
      liveExact caseExactState "R" "Bob" :=
  playerList_active_iff_exact_live_name caseExactState "R"
    ⟨"Bob", false, true⟩ (by decide)

/-- A list that is `Pairwise`-ordered by first components passes the
adjacent-pairs check. -/
theorem pairwise_namesSorted (rows : List (String × String))
    (h : rows.Pairwise (fun x y => x.1 ≤ y.1)) : namesSorted rows = true := by
  induction rows with
  | nil => rfl
  | cons a t ih =>
    cases t with
    | nil => rfl
    | cons b t2 =>
      rw [List.pairwise_cons] at h
      obtain ⟨hab, ht⟩ := h
      unfold namesSorted
      rw [Bool.and_eq_true]
      exact ⟨decide_eq_true (hab b (List.mem_cons_self b t2)), ih ht⟩

/-- The reveal query is ordered ascending by player name. -/
theorem queryAnswers_sorted (s : ServerState) (rc : String) (qid round : Nat) :
    namesSorted (queryAnswers s rc qid round) = true := by
  apply pairwise_namesSorted
  unfold queryAnswers
  exact List.Pairwise.map _ (fun a b hab => hab)
    (List.sorted_insertionSort answerLe (tupleRows s rc qid round))

/-- The reveal query is a permutation of the (projected) tuple rows. -/
theorem queryAnswers_perm (s : ServerState) (rc : String) (qid round : Nat) :
    (queryAnswers s rc qid round).Perm
      ((tupleRows s rc qid round).map (fun a => (a.playerName, a.answer))) := by
  unfold queryAnswers
  exact (List.perm_insertionSort answerLe (tupleRows s rc qid round)).map _

/-- C8: with an active round, `showAnswers` broadcasts exactly the ledger
rows of (room, activeQuestionId, currentRound), ordered ascending by player
name, and mutates nothing; with no active round it is a silent no-op. -/
theorem showAnswers_spec (s : ServerState) (roomCode : String) (room : Room)
    (hroom : findRoom s (upperStr roomCode) = some room) :
    (∀ qid, room.activeQuestionId = some qid →
      showAnswers s roomCode =
        (s, [.answersRevealed (upperStr roomCode)
              (queryAnswers s (upperStr roomCode) qid room.currentRound)]) ∧
      namesSorted (queryAnswers s (upperStr roomCode) qid room.currentRound) = true ∧
      (queryAnswers s (upperStr roomCode) qid room.currentRound).Perm
        ((tupleRows s (upperStr roomCode) qid room.currentRound).map
          (fun a => (a.playerName, a.answer)))) ∧
    (room.activeQuestionId = none → showAnswers s roomCode = (s, [])) := by
  constructor
  · intro qid hq
    refine ⟨?_, queryAnswers_sorted s (upperStr roomCode) qid room.currentRound,
      queryAnswers_perm s (upperStr roomCode) qid room.currentRound⟩
    unfold showAnswers
    simp only []
    rw [hroom]
    simp only []
    rw [hq]
  · intro hq
    unfold showAnswers
    simp only []
    rw [hroom]
    simp only []
    rw [hq]

/-- C8 witness: revealing in `revealState` broadcasts the two rows of the
active (question, round) in name order without touching the state, and in
`freshState` (no active question) it is a no-op. -/
theorem showAnswers_spec_witness :
    showAnswers revealState "R" =
      (revealState, [.answersRevealed (upperStr "R")
        (queryAnswers revealState (upperStr "R") 1 1)]) ∧
    namesSorted (queryAnswers revealState (upperStr "R") 1 1) = true ∧
    (queryAnswers revealState (upperStr "R") 1 1).Perm
      ((tupleRows revealState (upperStr "R") 1 1).map
        (fun a => (a.playerName, a.answer))) ∧
    showAnswers freshState "R" = (freshState, []) :=
  ⟨((showAnswers_spec revealState "R" ⟨"R", "open", 1, some 1⟩ (by decide)).1 1 rfl).1,
   ((showAnswers_spec revealState "R" ⟨"R", "open", 1, some 1⟩ (by decide)).1 1 rfl).2.1,
   ((showAnswers_spec revealState "R" ⟨"R", "open", 1, some 1⟩ (by decide)).1 1 rfl).2.2,
   (showAnswers_spec freshState "R" ⟨"R", "open", 0, none⟩ (by decide)).2 rfl⟩

/-- `findRoom` only reads the room table. -/
theorem findRoom_congr (s s' : ServerState) (rc : String)
    (h : s.rooms = s'.rooms) : findRoom s rc = findRoom s' rc := by
  unfold findRoom
  rw [h]

/-- `findQuestion` only reads the question table. -/
theorem findQuestion_congr (s s' : ServerState) (qid : Nat)
    (h : s.questions = s'.questions) : findQuestion s qid = findQuestion s' qid := by
  unfold findQuestion
  rw [h]

/-- The private replay sent by `joinLobby` during an active round: the
active prompt, the current round and the player's recorded answer for the
current (question, round), or `null`. -/
theorem joinLobby_replay (s : ServerState) (cid : Nat) (roomCode name : String)
    (room : Room) (q : Question) (qid : Nat)
    (hroom : findRoom s (upperStr roomCode) = some room)
    (hq : room.activeQuestionId = some qid)
    (hfq : findQuestion s qid = some q) :
    replayOf (joinLobby s cid roomCode name).2 cid =
      some ⟨qid, q.prompt,
        countPlayers (joinLobby s cid roomCode name).1 (upperStr roomCode),
        room.currentRound,
        queryOne s (upperStr roomCode) name qid room.currentRound⟩ := by
  unfold joinLobby
  simp only []
  rw [insertPlayer?_of_room s.rooms s.players (upperStr roomCode) name
    (rooms_any_of_findRoom s (upperStr roomCode) room hroom)]
  simp only []
  have hroom2 : findRoom
      { rooms := s.rooms, players := upsertPlayer s.players (upperStr roomCode) name,
        questions := s.questions, answers := s.answers,
        conns := socketJoin s.conns cid (upperStr roomCode) } (upperStr roomCode)
      = some room := hroom
  have hfq2 : findQuestion
      { rooms := s.rooms, players := upsertPlayer s.players (upperStr roomCode) name,
        questions := s.questions, answers := s.answers,
        conns := socketJoin s.conns cid (upperStr roomCode) } qid
      = some q := hfq
  rw [hroom2]
  simp only []
  rw [hq]
  simp only []
  rw [hfq2]
  simp only [replayOf, List.filterMap_cons, beq_self_eq_true, if_true]
  rfl

/-- C7: a connection that disconnects and rejoins the same room and name
during an active round receives a private `roundStarted` replay carrying
the active prompt, the current round number, and its previously recorded
answer for the current (question, round) — identical to the replay a
connection that never disconnected would receive. -/
theorem reconnection_replay_idempotent (s : ServerState) (cidOld cidNew : Nat)
    (roomCode name : String) (room : Room) (q : Question) (qid : Nat)
    (hroom : findRoom s (upperStr roomCode) = some room)
    (hq : room.activeQuestionId = some qid)
    (hfq : findQuestion s qid = some q) :
    replayOf (joinLobby (disconnectConn s cidOld) cidNew roomCode name).2 cidNew =
      some ⟨qid, q.prompt,
        countPlayers (joinLobby (disconnectConn s cidOld) cidNew roomCode name).1
          (upperStr roomCode),
        room.currentRound,
        queryOne s (upperStr roomCode) name qid room.currentRound⟩ ∧
    replayOf (joinLobby (disconnectConn s cidOld) cidNew roomCode name).2 cidNew =
      replayOf (joinLobby s cidOld roomCode name).2 cidOld := by
  have h1 := joinLobby_replay (disconnectConn s cidOld) cidNew roomCode name
    room q qid hroom hq hfq
  have h2 := joinLobby_replay s cidOld roomCode name room q qid hroom hq hfq
  have hex : (s.rooms.any (fun r => r.code == upperStr roomCode)) = true :=
    rooms_any_of_findRoom s (upperStr roomCode) room hroom
  refine ⟨h1, ?_⟩
  rw [h1, h2, joinLobby_fst (disconnectConn s cidOld) cidNew roomCode name hex,
    joinLobby_fst s cidOld roomCode name hex]
  rfl

/-- C7 witness: Alice's connection 1 drops and she rejoins as connection 7;
the replay carries "Prompt A", round 2 and her stored answer, and equals
the never-disconnected replay. -/
theorem reconnection_replay_idempotent_witness :
    replayOf (joinLobby (disconnectConn replayState 1) 7 "R" "Alice").2 7 =
      some ⟨1, "Prompt A",
        countPlayers (joinLobby (disconnectConn replayState 1) 7 "R" "Alice").1
          (upperStr "R"),
        2, queryOne replayState (upperStr "R") "Alice" 1 2⟩ ∧
    replayOf (joinLobby (disconnectConn replayState 1) 7 "R" "Alice").2 7 =
      replayOf (joinLobby replayState 1 "R" "Alice").2 1 :=
  reconnection_replay_idempotent replayState 1 7 "R" "Alice"
    ⟨"R", "open", 2, some 1⟩ ⟨1, "Prompt A", none⟩ 1 (by decide) rfl (by decide)

/-- The sorted catalog is empty exactly when the catalog is. -/
theorem sortedQuestions_eq_nil_iff (s : ServerState) :
    sortedQuestions s = [] ↔ s.questions = [] := by
  unfold sortedQuestions
  constructor
  · intro h0
    have hlen := (List.perm_insertionSort questionLe s.questions).length_eq
    rw [h0] at hlen
    exact List.length_eq_zero.mp hlen.symm
  · intro h0
    rw [h0]
    rfl

/-- `find?` by room code commutes with the atomic round bump: the found
room comes back with `currentRound` incremented and the question bound. -/
theorem findRoom_bumpRound (s : ServerState) (rc : String) (qid : Nat)
    (room : Room) (h : findRoom s rc = some room) :
    findRoom { s with rooms := bumpRound s.rooms rc qid } rc =
      some { room with
        currentRound := room.currentRound + 1
        activeQuestionId := some qid } := by
  have h2 : List.find? (fun r => r.code == rc) s.rooms = some room := h
  have hcode0 := List.find?_some h2
  have hcode : (room.code == rc) = true := hcode0
  unfold findRoom bumpRound
  simp only []
  rw [List.find?_map]
  have hpf : ((fun r : Room => r.code == rc) ∘ (fun r : Room =>
      if r.code == rc then
        { r with currentRound := r.currentRound + 1, activeQuestionId := some qid }
      else r)) = fun r : Room => r.code == rc := by
    funext r
    by_cases hr : r.code = rc
    · simp [hr]
    · simp [hr]
  rw [hpf, h2]
  have hcodeP : room.code = rc := eq_of_beq hcode
  simp [hcodeP]

/-- Every player of the room is unsubmitted after the reset. -/
theorem resetSubmitted_allUnsubmitted (players : List Player) (rc : String) :
    allUnsubmitted (resetSubmitted players rc) rc = true := by
  unfold allUnsubmitted resetSubmitted
  rw [List.all_eq_true]
  intro p hp
  rw [List.mem_map] at hp
  obtain ⟨p0, -, rfl⟩ := hp
  by_cases hr : (p0.roomCode == rc) = true
  · simp [hr]
  · simp only [if_neg hr, Bool.or_eq_true, bne_iff_ne, ne_eq]
    left
    exact fun hx => hr (by simp [hx])

/-- C5: on a non-empty catalog and an existing room, `startRound` bumps the
room's `currentRound` by exactly 1, binds the selected question as
`activeQuestionId`, resets every player's `submitted` flag of the room, and
broadcasts the new round (the merged list followed by `roundStarted` with
the new round number).  On an empty catalog it is a silent no-op. -/
theorem startRound_spec (s : ServerState) (k : Nat) (roomCode : String) :
    (s.questions = [] → startRound s k roomCode = (s, [])) ∧
    (∀ room q, s.questions ≠ [] →
      findRoom s (upperStr roomCode) = some room →
      findQuestion s (pickQuestion s k).id = some q →
      findRoom (startRound s k roomCode).1 (upperStr roomCode) =
          some { room with
            currentRound := room.currentRound + 1
            activeQuestionId := some (pickQuestion s k).id } ∧
      allUnsubmitted (startRound s k roomCode).1.players (upperStr roomCode) = true ∧
      (startRound s k roomCode).2 =
        [emitPlayerList (startRound s k roomCode).1 (upperStr roomCode),
         .roundStartedRoom (upperStr roomCode)
           ⟨(pickQuestion s k).id, q.prompt,
            countPlayers (startRound s k roomCode).1 (upperStr roomCode),
            room.currentRound + 1, none⟩]) := by
  constructor
  · intro h0
    have hnil : sortedQuestions s = [] := (sortedQuestions_eq_nil_iff s).mpr h0
    unfold startRound
    simp only []
    rw [hnil]
    rfl
  · intro room q hne hroom hfq
    have hnne : ¬((sortedQuestions s).isEmpty = true) := by
      rw [List.isEmpty_iff]
      exact fun h0 => hne ((sortedQuestions_eq_nil_iff s).mp h0)
    have hfalse : (sortedQuestions s).isEmpty = false := Bool.eq_false_iff.mpr hnne
    unfold startRound
    simp only []
    rw [hfalse]
    simp only [Bool.false_eq_true, if_false]
    rw [hfq]
    simp only []
    have hbump : findRoom
        { rooms := bumpRound s.rooms (upperStr roomCode) (pickQuestion s k).id,
          players := resetSubmitted s.players (upperStr roomCode),
          questions := s.questions, answers := s.answers, conns := s.conns }
        (upperStr roomCode)
        = some { room with
            currentRound := room.currentRound + 1
            activeQuestionId := some (pickQuestion s k).id } :=
      findRoom_bumpRound s (upperStr roomCode) (pickQuestion s k).id room hroom
    rw [hbump]
    simp only []
    exact ⟨hbump, resetSubmitted_allUnsubmitted s.players (upperStr roomCode), trivial⟩

/-- C5 witness: starting a round in `freshState` bumps the round to 1,
binds question 1, resets Alice's flag and broadcasts; on the empty catalog
of `noCatalogState` nothing happens. -/
theorem startRound_spec_witness :
    startRound noCatalogState 0 "R" = (noCatalogState, []) ∧
    (findRoom (startRound freshState 0 "R").1 (upperStr "R") =
        some { code := "R"
               status := "open"
               currentRound := 0 + 1
               activeQuestionId := some (pickQuestion freshState 0).id } ∧
      allUnsubmitted (startRound freshState 0 "R").1.players (upperStr "R") = true ∧
      (startRound freshState 0 "R").2 =
        [emitPlayerList (startRound freshState 0 "R").1 (upperStr "R"),
         .roundStartedRoom (upperStr "R")
           ⟨(pickQuestion freshState 0).id, "Prompt A",
            countPlayers (startRound freshState 0 "R").1 (upperStr "R"),
            0 + 1, none⟩]) :=
  ⟨(startRound_spec noCatalogState 0 "R").1 rfl,
   (startRound_spec freshState 0 "R").2 ⟨"R", "open", 0, none⟩
     ⟨1, "Prompt A", none⟩ (by decide) (by decide) (by decide)⟩

/-- `find?` by code commutes with any code-preserving map over the room
table. -/
theorem findRoom_map (s : ServerState) (rc : String) (f : Room → Room)
    (hf : ∀ r, (f r).code = r.code) (room : Room)
    (h : findRoom s rc = some room) :
    findRoom { s with rooms := s.rooms.map f } rc = some (f room) := by
  have h2 : List.find? (fun r => r.code == rc) s.rooms = some room := h
  unfold findRoom
  simp only []
  rw [List.find?_map]
  have hpf : ((fun r : Room => r.code == rc) ∘ f) = fun r : Room => r.code == rc := by
    funext r
    show ((f r).code == rc) = (r.code == rc)
    rw [hf r]
  rw [hpf, h2]
  rfl

/-- The room's stored round never decreases under any single atomic write
statement, and the atomic `incrRound` on that room sets it to exactly
`r + 1`. -/
theorem roundOf_applyDbOp (s : ServerState) (rc : String) (op : DbOp) (r : Nat)
    (h : roundOf s rc = some r) :
    ∃ r2, roundOf (applyDbOp s op) rc = some r2 ∧ r ≤ r2 ∧
      (∀ qid, op = DbOp.incrRound rc qid → r2 = r + 1) := by
  obtain ⟨room, hroom, hr⟩ : ∃ room, findRoom s rc = some room ∧ room.currentRound = r := by
    unfold roundOf at h
    cases hfr : findRoom s rc with
    | none => rw [hfr] at h; exact absurd h (by simp)
    | some room =>
      rw [hfr] at h
      exact ⟨room, rfl, by simpa using h⟩
  have hcode : room.code = rc := by
    have h2 : List.find? (fun r0 => r0.code == rc) s.rooms = some room := hroom
    have h3 := List.find?_some h2
    exact eq_of_beq h3
  cases op with
  | incrRound rc2 qid =>
    have hmap := findRoom_map s rc (fun r0 =>
      if r0.code == rc2 then
        { r0 with currentRound := r0.currentRound + 1, activeQuestionId := some qid }
      else r0) (fun r0 => by by_cases h0 : r0.code = rc2 <;> simp [h0]) room hroom
    have hround : roundOf (applyDbOp s (DbOp.incrRound rc2 qid)) rc =
        some ((if room.code == rc2 then
          { room with currentRound := room.currentRound + 1,
                      activeQuestionId := some qid }
        else room).currentRound) := by
      unfold roundOf applyDbOp bumpRound
      rw [hmap]
      rfl
    by_cases hrc : room.code = rc2
    · refine ⟨r + 1, ?_, Nat.le_succ r, fun qid2 _ => rfl⟩
      rw [hround]
      simp [hrc, hr]
    · refine ⟨r, ?_, le_refl r, fun qid2 heq => ?_⟩
      · rw [hround]
        simp [hrc, hr]
      · injection heq with e1 e2
        rw [e1] at hrc
        exact absurd hcode hrc
  | opResetSubmitted rc2 =>
    exact ⟨r, h, le_refl r, fun qid2 heq => by cases heq⟩
  | opSetSubmitted rc2 name =>
    exact ⟨r, h, le_refl r, fun qid2 heq => by cases heq⟩
  | opInsertPlayer rc2 name =>
    exact ⟨r, h, le_refl r, fun qid2 heq => by cases heq⟩
  | opInsertAnswer row =>
    exact ⟨r, h, le_refl r, fun qid2 heq => by cases heq⟩
  | opSetStatus rc2 status =>
    have hmap := findRoom_map s rc (fun r0 =>
      if r0.code == rc2 then { r0 with status := status } else r0)
      (fun r0 => by by_cases h0 : r0.code = rc2 <;> simp [h0]) room hroom
    refine ⟨r, ?_, le_refl r, fun qid2 heq => by cases heq⟩
    have hround : roundOf (applyDbOp s (DbOp.opSetStatus rc2 status)) rc =
        some ((if room.code == rc2 then { room with status := status }
          else room).currentRound) := by
      unfold roundOf applyDbOp setStatus
      rw [hmap]
      rfl
    rw [hround]
    by_cases hrc : room.code = rc2 <;> simp [hrc, hr]
  | opInsertRoom rc2 status =>
    refine ⟨r, ?_, le_refl r, fun qid2 heq => by cases heq⟩
    unfold applyDbOp insertRoom
    simp only []
    by_cases hex : (s.rooms.any (fun r0 => r0.code == rc2)) = true
    · rw [if_pos hex]
      exact h
    · rw [if_neg hex]
      unfold roundOf findRoom
      simp only []
      rw [List.find?_append]
      have h2 : List.find? (fun r0 => r0.code == rc) s.rooms = some room := hroom
      rw [h2, Option.or_some]
      simp [hr]

/-- Every round value assigned after the current state strictly exceeds the
current stored round. -/
theorem assignedRounds_gt (rc : String) (ops : List DbOp) :
    ∀ (s : ServerState) (r : Nat), roundOf s rc = some r →
      ∀ v ∈ assignedRounds s rc ops, r < v := by
  induction ops with
  | nil =>
    intro s r _ v hv
    cases hv
  | cons op t ih =>
    intro s r h v hv
    obtain ⟨r2, h2, hle, hinc⟩ := roundOf_applyDbOp s rc op r h
    unfold assignedRounds at hv
    cases op with
    | incrRound rc2 qid =>
      simp only [] at hv
      by_cases hrc : rc2 = rc
      · subst hrc
        rw [if_pos rfl, h] at hv
        simp only [] at hv
        rcases List.mem_cons.mp hv with rfl | hv2
        · exact Nat.lt_succ_of_le (le_refl r)
        · have hr2 : r2 = r + 1 := hinc qid rfl
          rw [hr2] at h2
          exact lt_of_le_of_lt (Nat.le_succ r) (ih _ (r + 1) h2 v hv2)
      · rw [if_neg hrc] at hv
        exact lt_of_le_of_lt hle (ih _ r2 h2 v hv)
    | opResetSubmitted rc2 =>
      simp only [] at hv
      exact lt_of_le_of_lt hle (ih _ r2 h2 v hv)
    | opSetSubmitted rc2 name =>
      simp only [] at hv
      exact lt_of_le_of_lt hle (ih _ r2 h2 v hv)
    | opInsertPlayer rc2 name =>
      simp only [] at hv
      exact lt_of_le_of_lt hle (ih _ r2 h2 v hv)
    | opInsertAnswer row =>
      simp only [] at hv
      exact lt_of_le_of_lt hle (ih _ r2 h2 v hv)
    | opSetStatus rc2 status =>
      simp only [] at hv
      exact lt_of_le_of_lt hle (ih _ r2 h2 v hv)
    | opInsertRoom rc2 status =>
      simp only [] at hv
      exact lt_of_le_of_lt hle (ih _ r2 h2 v hv)

/-- C4: along any interleaving of atomic write statements — in particular
any interleaving of concurrent `startRound` handlers, whose only write to
`current_round` is the single atomic `incrRound` UPDATE — the round values
assigned to a room are pairwise strictly increasing: the round number only
ever increases and no value is ever assigned twice. -/
theorem round_numbers_strictly_increasing (s : ServerState) (rc : String)
    (ops : List DbOp) :
    (assignedRounds s rc ops).Pairwise (· < ·) := by
  induction ops generalizing s with
  | nil => exact List.Pairwise.nil
  | cons op t ih =>
    unfold assignedRounds
    cases op with
    | incrRound rc2 qid =>
      simp only []
      by_cases hrc : rc2 = rc
      · subst hrc
        rw [if_pos rfl]
        cases hro : roundOf s rc2 with
        | none => exact ih _
        | some r =>
          rw [List.pairwise_cons]
          refine ⟨?_, ih _⟩
          intro v hv
          obtain ⟨r2, h2, -, hinc⟩ :=
            roundOf_applyDbOp s rc2 (DbOp.incrRound rc2 qid) r hro
          have hr2 : r2 = r + 1 := hinc qid rfl
          rw [hr2] at h2
          exact assignedRounds_gt rc2 t _ (r + 1) h2 v hv
      · rw [if_neg hrc]
        exact ih _
    | opResetSubmitted rc2 => simp only []; exact ih _
    | opSetSubmitted rc2 name => simp only []; exact ih _
    | opInsertPlayer rc2 name => simp only []; exact ih _
    | opInsertAnswer row => simp only []; exact ih _
    | opSetStatus rc2 status => simp only []; exact ih _
    | opInsertRoom rc2 status => simp only []; exact ih _

/-- The durable effect of a (non-empty-catalog) `startRound` is exactly the
two atomic statements of `startRoundOps` applied in order: the handler's
only write to `current_round` is the atomic `incrRound`. -/
theorem startRound_durable_ops (s : ServerState) (k : Nat) (roomCode : String)
    (hne : s.questions ≠ []) :
    (startRound s k roomCode).1 =
      (startRoundOps (upperStr roomCode) (pickQuestion s k).id).foldl applyDbOp s := by
  have hnne : ¬((sortedQuestions s).isEmpty = true) := by
    rw [List.isEmpty_iff]
    exact fun h0 => hne ((sortedQuestions_eq_nil_iff s).mp h0)
  have hfalse : (sortedQuestions s).isEmpty = false := Bool.eq_false_iff.mpr hnne
  have hlenpos : 0 < (sortedQuestions s).length := by
    cases hq : sortedQuestions s with
    | nil => exact absurd hq (fun h0 => hne ((sortedQuestions_eq_nil_iff s).mp h0))
    | cons a t => simp
  have hlt : k % (sortedQuestions s).length < (sortedQuestions s).length :=
    Nat.mod_lt k hlenpos
  have hmem : pickQuestion s k ∈ sortedQuestions s := by
    unfold pickQuestion
    rw [List.getD_eq_getElem?_getD, List.getElem?_eq_getElem hlt]
    exact List.getElem_mem hlt
  have hmem2 : pickQuestion s k ∈ s.questions :=
    (List.mem_insertionSort questionLe (l := s.questions)).mp hmem
  obtain ⟨q, hfq⟩ : ∃ q, findQuestion s (pickQuestion s k).id = some q := by
    have hsome : (List.find? (fun q => q.id == (pickQuestion s k).id)
        s.questions).isSome := by
      rw [List.find?_isSome]
      exact ⟨pickQuestion s k, hmem2, beq_self_eq_true _⟩
    exact Option.isSome_iff_exists.mp hsome
  unfold startRound
  simp only []
  rw [hfalse]
  simp only [Bool.false_eq_true, if_false]
  rw [hfq]
  simp only []
  cases hfr : findRoom
      { rooms := bumpRound s.rooms (upperStr roomCode) (pickQuestion s k).id,
        players := resetSubmitted s.players (upperStr roomCode),
        questions := s.questions, answers := s.answers, conns := s.conns }
      (upperStr roomCode) <;> rfl

end Herd
